import Mathlib

/-!
Verification development for the homecast library: discovery of
Google-Home cast receivers over mDNS and playback-control commands
(load media, speak via text-to-speech, queue load, queue insert).

Go strings are byte sequences, so strings from the source are modelled
as lists of natural numbers below 256.  The external collaborators
(net/url, the mdns lookup, the cast client) are modelled from their
documented behaviour as used by the source: url.QueryEscape and
url.QueryUnescape are transcribed byte for byte, url.Parse is modelled
on the scheme://host/path?query shapes the source produces, and the
cast client is an oracle recording the commands issued.
-/

namespace Homecast

/-- Bytes of an ASCII string literal; used to transcribe the Go
source's string constants into the byte-list model. -/
def strBytes (s : String) : List Nat := s.data.map Char.toNat

/-- Go strings.HasPrefix: the first list begins with the second. -/
def hasPref : List Nat → List Nat → Bool
  | _, [] => true
  | [], _ :: _ => false
  | b :: s, p :: ps => b == p && hasPref s ps

/-- The mDNS service name constant from the source. -/
def googleCastServiceName : List Nat := strBytes "_googlecast._tcp"

/-- The model-information marker constant from the source. -/
def googleHomeModelInfo : List Nat := strBytes "md=Google Home"

/-- Go net/url: bytes a query-component escaper keeps verbatim
(alphanumerics and -, _, ., ~). -/
def isUnreserved (b : Nat) : Bool :=
  (decide (65 ≤ b) && decide (b ≤ 90)) ||
  (decide (97 ≤ b) && decide (b ≤ 122)) ||
  (decide (48 ≤ b) && decide (b ≤ 57)) ||
  b == 45 || b == 95 || b == 46 || b == 126

/-- Upper-case hexadecimal digit byte for a value below 16,
as in Go net/url's escape table. -/
def hexDigit (n : Nat) : Nat := if n < 10 then 48 + n else 55 + n

/-- Go url.QueryEscape on one byte: kept verbatim when unreserved,
space becomes plus, anything else becomes a percent escape. -/
def escapeByte (b : Nat) : List Nat :=
  if isUnreserved b then [b]
  else if b = 32 then [43]
  else [37, hexDigit (b / 16), hexDigit (b % 16)]

/-- Go url.QueryEscape over a whole byte string. -/
def queryEscape : List Nat → List Nat
  | [] => []
  | b :: rest => escapeByte b ++ queryEscape rest

/-- Value of one hexadecimal digit byte, as in Go net/url's unhex. -/
def hexVal (c : Nat) : Option Nat :=
  if 48 ≤ c ∧ c ≤ 57 then some (c - 48)
  else if 65 ≤ c ∧ c ≤ 70 then some (c - 55)
  else if 97 ≤ c ∧ c ≤ 102 then some (c - 87)
  else none

/-- Go url.QueryUnescape: plus becomes space, a percent escape is two
hexadecimal digits (otherwise an error), other bytes are literal. -/
def queryUnescape : List Nat → Option (List Nat)
  | [] => some []
  | b :: rest =>
    if b = 43 then (queryUnescape rest).map (fun r => 32 :: r)
    else if b = 37 then
      match rest with
      | h :: l :: rest2 =>
        match hexVal h, hexVal l with
        | some hv, some lv =>
          (queryUnescape rest2).map (fun r => (16 * hv + lv) :: r)
        | _, _ => none
      | _ => none
    else (queryUnescape rest).map (fun r => b :: r)
  termination_by l => l.length
  decreasing_by all_goals simp_wf <;> omega

/-- Split a query string at ampersand bytes, as Go url.ParseQuery does. -/
def splitAmp : List Nat → List (List Nat)
  | [] => [[]]
  | b :: rest =>
    if b = 38 then [] :: splitAmp rest
    else
      match splitAmp rest with
      | [] => [[b]]
      | g :: gs => (b :: g) :: gs

/-- Split one key=value segment at the first equals byte, as Go
url.ParseQuery does; without an equals byte the value is empty. -/
def splitEq : List Nat → List Nat × List Nat
  | [] => ([], [])
  | b :: rest =>
    if b = 61 then ([], rest)
    else ((b :: (splitEq rest).1), (splitEq rest).2)

/-- Look up a query parameter by key and decode its value, following
Go url.ParseQuery and Values.Get. -/
def getParam (query key : List Nat) : Option (List Nat) :=
  match (splitAmp query).find? (fun seg => (splitEq seg).1 == key) with
  | some seg => queryUnescape (splitEq seg).2
  | none => none

/-- A control byte, on which Go url.Parse fails. -/
def isCtl (b : Nat) : Bool := decide (b < 32) || b == 127

/-- Split a byte string at the first occurrence of a byte. -/
def splitAtByte (t : Nat) : List Nat → Option (List Nat × List Nat)
  | [] => none
  | b :: rest =>
    if b = t then some ([], rest)
    else
      match splitAtByte t rest with
      | none => none
      | some p => some (b :: p.1, p.2)

/-- The parts of a parsed URL the source consumes (Go url.URL for the
scheme://host/path?query shapes produced here). -/
structure URL where
  scheme : List Nat
  host : List Nat
  path : List Nat
  rawQuery : List Nat
deriving DecidableEq

/-- Go url.URL.String for the shapes produced here: scheme, "://",
host, path, and "?" with the raw query when the query is nonempty. -/
def URL.render (u : URL) : List Nat :=
  u.scheme ++ strBytes "://" ++ u.host ++ u.path ++
    (if u.rawQuery.isEmpty then [] else 63 :: u.rawQuery)

/-- Go url.Parse, modelled on its documented behaviour for the absolute
URLs the source builds: it fails on control bytes or a missing scheme,
and otherwise splits scheme, host, path and raw query. -/
def parseURL (s : List Nat) : Option URL :=
  if s.any isCtl then none
  else
    match splitAtByte 58 s with
    | none => none
    | some sp =>
      if sp.1 = [] then none
      else
        match sp.2 with
        | 47 :: 47 :: rest2 =>
          let hq :=
            match splitAtByte 63 rest2 with
            | none => (rest2, ([] : List Nat))
            | some p => p
          let hp :=
            match splitAtByte 47 hq.1 with
            | none => (hq.1, ([] : List Nat))
            | some p => (p.1, 47 :: p.2)
          some ⟨sp.1, hp.1, hp.2, hq.2⟩
        | _ => none

/-- An error surfaced by an external collaborator (url.Parse, the cast
client); opaque to the source beyond being propagated. -/
structure CastError where
  msg : List Nat
deriving DecidableEq

/-- The query part the tts template produces after substitution. -/
def ttsQuery (text lang : List Nat) : List Nat :=
  strBytes "client=tw-ob&ie=UTF-8&q=" ++ queryEscape text ++
    strBytes "&tl=" ++ queryEscape lang

/-- The templated string tts builds: fmt.Sprintf of the fixed base URL
with both inputs query-escaped. -/
def ttsTemplated (text lang : List Nat) : List Nat :=
  strBytes "https://translate.google.com/translate_tts?client=tw-ob&ie=UTF-8&q=" ++
    queryEscape text ++ strBytes "&tl=" ++ queryEscape lang

/-- The source's tts function: url.Parse of the templated string. -/
def tts (text lang : List Nat) : Except CastError URL :=
  match parseURL (ttsTemplated text lang) with
  | some u => Except.ok u
  | none => Except.error ⟨strBytes "parse error"⟩

/-- Go controllers.MediaMetaData: the two fields the source sets. -/
structure MediaMetaData where
  metaDataType : Nat
  title : List Nat
deriving DecidableEq

/-- Go controllers.MediaItem as the source builds it; metaData is the
optional metadata block (none when the source leaves it unset). -/
structure MediaItem where
  contentId : List Nat
  streamType : List Nat
  contentType : List Nat
  metaData : Option MediaMetaData
deriving DecidableEq

/-- A command the source sends through the media controller, with the
arguments as passed at the call sites. -/
inductive Command where
  | loadMedia (item : MediaItem) (currentTime : Nat) (autoplay : Bool)
      (customData : Option Unit)
  | queueLoad (items : List MediaItem) (startIndex : Nat)
      (customData : Option Unit)
  | queueInsert (items : List MediaItem) (customData : Option Unit)
deriving DecidableEq

/-- Behaviour of one cast client as the device-session methods use it:
whether obtaining the media controller succeeds, and the outcome of
each command sent through it. -/
structure ClientBehavior where
  mediaResult : Except CastError Unit
  sendResult : Command → Except CastError Unit

/-- The source's Play method: obtain the media controller, build a
single item with fixed content type and stream type and no metadata,
and send LoadMedia with current time 0, autoplay true and nil custom
data.  The second component records the commands sent. -/
def Play (c : ClientBehavior) (u : URL) :
    Except CastError Unit × List Command :=
  match c.mediaResult with
  | Except.error e => (Except.error e, [])
  | Except.ok _ =>
    let mediaItem : MediaItem :=
      { contentId := u.render
        streamType := strBytes "BUFFERED"
        contentType := strBytes "audio/mp3"
        metaData := none }
    (c.sendResult (Command.loadMedia mediaItem 0 true none),
      [Command.loadMedia mediaItem 0 true none])

/-- The source's Speak method: resolve the tts URL, return its error on
failure, and otherwise delegate to Play. -/
def Speak (c : ClientBehavior) (text lang : List Nat) :
    Except CastError Unit × List Command :=
  match tts text lang with
  | Except.error e => (Except.error e, [])
  | Except.ok u => Play c u

/-- The source's MediaData: a URL and a title. -/
structure MediaData where
  url : URL
  title : List Nat

/-- One queue item as the source's QueueLoad and QueueInsert loops
build it: content id from the URL, fixed stream and content types, and
metadata with type 3 and the input's title. -/
def queueItem (d : MediaData) : MediaItem :=
  { contentId := d.url.render
    streamType := strBytes "BUFFERED"
    contentType := strBytes "audio/mp3"
    metaData := some { metaDataType := 3, title := d.title } }

/-- The source's QueueLoad method: obtain the media controller, build
one item per input in order, and send QueueLoad with start index 0 and
nil custom data. -/
def QueueLoad (c : ClientBehavior) (data : List MediaData) :
    Except CastError Unit × List Command :=
  match c.mediaResult with
  | Except.error e => (Except.error e, [])
  | Except.ok _ =>
    let items := data.map queueItem
    (c.sendResult (Command.queueLoad items 0 none),
      [Command.queueLoad items 0 none])

/-- The source's QueueInsert method: same item construction, sent as a
QueueInsert command with nil custom data. -/
def QueueInsert (c : ClientBehavior) (data : List MediaData) :
    Except CastError Unit × List Command :=
  match c.mediaResult with
  | Except.error e => (Except.error e, [])
  | Except.ok _ =>
    let items := data.map queueItem
    (c.sendResult (Command.queueInsert items none),
      [Command.queueInsert items none])

/-- Go mdns.ServiceEntry: the fields the source consumes. -/
structure ServiceEntry where
  addrV4 : List Nat
  port : Nat
  name : List Nat
  infoFields : List (List Nat)
deriving DecidableEq

/-- A cast client handle; the identifier distinguishes the client
objects created by successive cast.NewClient calls. -/
structure Client where
  id : Nat
deriving DecidableEq

/-- The source's CastDevice: the service entry together with its own
cast client. -/
structure CastDevice where
  entry : ServiceEntry
  client : Client
deriving DecidableEq

/-- Number of descriptor fields carrying the receiver-family marker. -/
def countMatch (fields : List (List Nat)) : Nat :=
  fields.countP (fun f => hasPref f googleHomeModelInfo)

/-- The collector's inner loop over one entry's InfoFields: for each
field starting with the marker a fresh client (numbered by the attempt
counter) is created and connected; on connect success a CastDevice is
appended, on failure the loop continues.  Returns the advanced attempt
counter and the devices gathered, in field order. -/
def processFields (ok : Nat → Bool) (e : ServiceEntry) :
    Nat → List (List Nat) → Nat × List CastDevice
  | n, [] => (n, [])
  | n, f :: rest =>
    if hasPref f googleHomeModelInfo then
      if ok n then
        ((processFields ok e (n + 1) rest).1,
          ⟨e, ⟨n⟩⟩ :: (processFields ok e (n + 1) rest).2)
      else processFields ok e (n + 1) rest
    else processFields ok e n rest

/-- The collector's processing of a stream of entries in arrival
order, threading the connection-attempt counter. -/
def processEntriesFrom (ok : Nat → Bool) :
    Nat → List ServiceEntry → Nat × List CastDevice
  | n, [] => (n, [])
  | n, e :: rest =>
    ((processEntriesFrom ok (processFields ok e n e.infoFields).1 rest).1,
      (processFields ok e n e.infoFields).2 ++
        (processEntriesFrom ok (processFields ok e n e.infoFields).1 rest).2)

/-- Outcome of the blocking mdns.Lookup call: the entries it delivered
into the channel, and its error, if any. -/
structure LookupOutcome where
  delivered : List ServiceEntry
  err : Option CastError

/-- The source's LookupAndConnect, viewed as the value of the fully
drained run: the collector processes every delivered entry, and the
lookup error is only logged, never propagated (the return type carries
no error). -/
def LookupAndConnect (ok : Nat → Bool) (outcome : LookupOutcome) :
    List CastDevice :=
  (processEntriesFrom ok 0 outcome.delivered).2

/-- State of the LookupAndConnect orchestration: entries the lookup has
yet to deliver, the buffered channel's contents, whether mdns.Lookup
has returned, whether close(entriesCh) has run, the entries the
collector goroutine has consumed so far (in order), and the value the
main goroutine has returned, if it has. -/
structure OrchState where
  pending : List ServiceEntry
  queue : List ServiceEntry
  lookupReturned : Bool
  closed : Bool
  consumed : List ServiceEntry
  retVal : Option (List CastDevice)

/-- Initial orchestration state for a lookup that will deliver the
given entries. -/
def initOrch (entries : List ServiceEntry) : OrchState :=
  ⟨entries, [], false, false, [], none⟩

/-- One interleaving step of the source's LookupAndConnect: the lookup
delivers into the capacity-4 channel while it has not been closed; the
lookup call returns; the main goroutine then closes the channel and,
with nothing in between, returns the results slice as built from the
entries consumed so far; independently, the collector goroutine
receives buffered entries and processes them.  The source contains no
synchronization between close(entriesCh) and the return, so the return
step does not wait for the queue to drain. -/
inductive Step (ok : Nat → Bool) : OrchState → OrchState → Prop
  | deliver (s : OrchState) (e : ServiceEntry) (rest : List ServiceEntry)
      (hp : s.pending = e :: rest) (hq : s.queue.length < 4)
      (hc : s.closed = false) :
      Step ok s { s with pending := rest, queue := s.queue ++ [e] }
  | lookupRet (s : OrchState) (hl : s.lookupReturned = false) :
      Step ok s { s with lookupReturned := true }
  | closeCh (s : OrchState) (hl : s.lookupReturned = true)
      (hc : s.closed = false) :
      Step ok s { s with closed := true }
  | consume (s : OrchState) (e : ServiceEntry) (q : List ServiceEntry)
      (hq : s.queue = e :: q) :
      Step ok s { s with queue := q, consumed := s.consumed ++ [e] }
  | ret (s : OrchState) (hc : s.closed = true) (hr : s.retVal = none) :
      Step ok s
        { s with retVal := some (processEntriesFrom ok 0 s.consumed).2 }

theorem hexVal_hexDigit (n : Nat) (h : n < 16) : hexVal (hexDigit n) = some n := by
  interval_cases n <;> rfl

theorem escapeByte_mem {b c : Nat} (hb : b < 256) (hc : c ∈ escapeByte b) :
    37 ≤ c ∧ c ≤ 126 ∧ c ≠ 38 ∧ c ≠ 61 := by
  unfold escapeByte at hc
  by_cases h1 : isUnreserved b
  · simp only [h1, if_true, List.mem_singleton] at hc
    subst hc
    simp [isUnreserved] at h1
    omega
  · by_cases h2 : b = 32
    · subst h2
      simp [isUnreserved] at hc
      omega
    · simp only [h1, h2, if_false, Bool.false_eq_true, List.mem_cons,
        List.mem_singleton, List.not_mem_nil, or_false] at hc
      have hd : ∀ m, m < 16 → 48 ≤ hexDigit m ∧ hexDigit m ≤ 70 ∧
          hexDigit m ≠ 61 := by
        intro m hm; unfold hexDigit; split <;> omega
      have h16 : b / 16 < 16 := by omega
      have h16b : b % 16 < 16 := by omega
      rcases hc with hc | hc | hc <;> subst hc
      · omega
      · have := hd _ h16; omega
      · have := hd _ h16b; omega

theorem queryEscape_mem {s : List Nat} (hs : ∀ b ∈ s, b < 256) :
    ∀ c ∈ queryEscape s, 37 ≤ c ∧ c ≤ 126 ∧ c ≠ 38 ∧ c ≠ 61 := by
  induction s with
  | nil => intro c hc; cases hc
  | cons b rest ih =>
    intro c hc
    have hb : b < 256 := hs b (List.mem_cons_self _ _)
    have hrest : ∀ x ∈ rest, x < 256 :=
      fun x hx => hs x (List.mem_cons_of_mem _ hx)
    rw [queryEscape] at hc
    rcases List.mem_append.1 hc with h | h
    · exact escapeByte_mem hb h
    · exact ih hrest c h

theorem queryUnescape_queryEscape {s : List Nat} (hs : ∀ b ∈ s, b < 256) :
    queryUnescape (queryEscape s) = some s := by
  induction s with
  | nil => simp [queryEscape, queryUnescape]
  | cons b rest ih =>
    have hb : b < 256 := hs b (List.mem_cons_self _ _)
    have ih' := ih (fun x hx => hs x (List.mem_cons_of_mem _ hx))
    show queryUnescape (escapeByte b ++ queryEscape rest) = some (b :: rest)
    by_cases h1 : isUnreserved b
    · have he : escapeByte b = [b] := by simp [escapeByte, h1]
      have hb43 : b ≠ 43 := by simp [isUnreserved] at h1; omega
      have hb37 : b ≠ 37 := by simp [isUnreserved] at h1; omega
      rw [he, List.cons_append, List.nil_append, queryUnescape.eq_def]
      simp [hb43, hb37, ih']
    · by_cases h2 : b = 32
      · subst h2
        have he : escapeByte 32 = [43] := rfl
        rw [he, List.cons_append, List.nil_append, queryUnescape.eq_def]
        simp [ih']
      · have he : escapeByte b = [37, hexDigit (b / 16), hexDigit (b % 16)] := by
          simp [escapeByte, h1, h2]
        have e1 : hexVal (hexDigit (b / 16)) = some (b / 16) :=
          hexVal_hexDigit _ (by omega)
        have e2 : hexVal (hexDigit (b % 16)) = some (b % 16) :=
          hexVal_hexDigit _ (by omega)
        have e3 : 16 * (b / 16) + b % 16 = b := Nat.div_add_mod b 16
        rw [he]
        show queryUnescape
            (37 :: hexDigit (b / 16) :: hexDigit (b % 16) :: queryEscape rest) =
          some (b :: rest)
        rw [queryUnescape.eq_def]
        simp [e1, e2, e3, ih']

theorem splitAmp_no38 {xs : List Nat} (h : ∀ b ∈ xs, b ≠ 38) :
    splitAmp xs = [xs] := by
  induction xs with
  | nil => rfl
  | cons b rest ih =>
    have hb : b ≠ 38 := h b (List.mem_cons_self _ _)
    have ih' := ih (fun x hx => h x (List.mem_cons_of_mem _ hx))
    simp [splitAmp, hb, ih']

theorem splitAmp_append {xs ys : List Nat} (h : ∀ b ∈ xs, b ≠ 38) :
    splitAmp (xs ++ 38 :: ys) = xs :: splitAmp ys := by
  induction xs with
  | nil => simp [splitAmp]
  | cons b rest ih =>
    have hb : b ≠ 38 := h b (List.mem_cons_self _ _)
    have ih' := ih (fun x hx => h x (List.mem_cons_of_mem _ hx))
    simp [splitAmp, hb, ih']

theorem ttsQuery_split (text lang : List Nat) :
    ttsQuery text lang =
      strBytes "client=tw-ob" ++ 38 ::
        (strBytes "ie=UTF-8" ++ 38 ::
          ((strBytes "q=" ++ queryEscape text) ++ 38 ::
            (strBytes "tl=" ++ queryEscape lang))) := by
  have hA : strBytes "client=tw-ob&ie=UTF-8&q=" =
      strBytes "client=tw-ob" ++ 38 :: (strBytes "ie=UTF-8" ++ 38 :: strBytes "q=") := by
    decide
  have hB : strBytes "&tl=" = 38 :: strBytes "tl=" := by decide
  unfold ttsQuery
  rw [hA, hB]
  simp [List.append_assoc]

theorem splitAmp_ttsQuery {text lang : List Nat}
    (ht : ∀ b ∈ text, b < 256) (hl : ∀ b ∈ lang, b < 256) :
    splitAmp (ttsQuery text lang) =
      [strBytes "client=tw-ob", strBytes "ie=UTF-8",
       strBytes "q=" ++ queryEscape text,
       strBytes "tl=" ++ queryEscape lang] := by
  have hq : ∀ b ∈ strBytes "q=" ++ queryEscape text, b ≠ 38 := by
    intro b hb
    rcases List.mem_append.1 hb with h | h
    · have : ∀ x ∈ strBytes "q=", x ≠ 38 := by decide
      exact this b h
    · exact (queryEscape_mem ht b h).2.2.1
  have htl : ∀ b ∈ strBytes "tl=" ++ queryEscape lang, b ≠ 38 := by
    intro b hb
    rcases List.mem_append.1 hb with h | h
    · have : ∀ x ∈ strBytes "tl=", x ≠ 38 := by decide
      exact this b h
    · exact (queryEscape_mem hl b h).2.2.1
  rw [ttsQuery_split,
    splitAmp_append (by decide),
    splitAmp_append (by decide),
    splitAmp_append hq,
    splitAmp_no38 htl]

theorem splitEq_q (text : List Nat) :
    splitEq (strBytes "q=" ++ queryEscape text) = (strBytes "q", queryEscape text) :=
  rfl

theorem splitEq_tl (lang : List Nat) :
    splitEq (strBytes "tl=" ++ queryEscape lang) = (strBytes "tl", queryEscape lang) :=
  rfl

theorem getParam_ttsQuery_q {text lang : List Nat}
    (ht : ∀ b ∈ text, b < 256) (hl : ∀ b ∈ lang, b < 256) :
    getParam (ttsQuery text lang) (strBytes "q") = some text := by
  unfold getParam
  rw [splitAmp_ttsQuery ht hl]
  rw [List.find?_cons_of_neg, List.find?_cons_of_neg, List.find?_cons_of_pos]
  · show queryUnescape (splitEq (strBytes "q=" ++ queryEscape text)).2 = some text
    rw [splitEq_q]
    exact queryUnescape_queryEscape ht
  · exact rfl
  · exact Bool.false_ne_true
  · exact Bool.false_ne_true

theorem getParam_ttsQuery_tl {text lang : List Nat}
    (ht : ∀ b ∈ text, b < 256) (hl : ∀ b ∈ lang, b < 256) :
    getParam (ttsQuery text lang) (strBytes "tl") = some lang := by
  unfold getParam
  rw [splitAmp_ttsQuery ht hl]
  rw [List.find?_cons_of_neg, List.find?_cons_of_neg, List.find?_cons_of_neg,
    List.find?_cons_of_pos]
  · show queryUnescape (splitEq (strBytes "tl=" ++ queryEscape lang)).2 = some lang
    rw [splitEq_tl]
    exact queryUnescape_queryEscape hl
  · exact rfl
  · exact Bool.false_ne_true
  · exact Bool.false_ne_true
  · exact Bool.false_ne_true

theorem queryEscape_any_ctl {s : List Nat} (hs : ∀ b ∈ s, b < 256) :
    (queryEscape s).any isCtl = false := by
  rw [List.any_eq_false]
  intro c hc
  have h := queryEscape_mem hs c hc
  simp [isCtl]
  omega

theorem ttsTemplated_any_ctl {text lang : List Nat}
    (ht : ∀ b ∈ text, b < 256) (hl : ∀ b ∈ lang, b < 256) :
    (ttsTemplated text lang).any isCtl = false := by
  unfold ttsTemplated
  simp only [List.any_append, Bool.or_eq_false_iff]
  refine ⟨⟨⟨by decide, queryEscape_any_ctl ht⟩, by decide⟩,
    queryEscape_any_ctl hl⟩

theorem parseURL_tts {text lang : List Nat}
    (ht : ∀ b ∈ text, b < 256) (hl : ∀ b ∈ lang, b < 256) :
    parseURL (ttsTemplated text lang) = some
      ⟨strBytes "https", strBytes "translate.google.com",
       strBytes "/translate_tts", ttsQuery text lang⟩ := by
  have h58 : splitAtByte 58 (ttsTemplated text lang) =
      some (strBytes "https",
        strBytes "//translate.google.com/translate_tts?client=tw-ob&ie=UTF-8&q=" ++
          queryEscape text ++ strBytes "&tl=" ++ queryEscape lang) := rfl
  have h2 : strBytes "//translate.google.com/translate_tts?client=tw-ob&ie=UTF-8&q=" ++
      queryEscape text ++ strBytes "&tl=" ++ queryEscape lang =
      47 :: 47 ::
        (strBytes "translate.google.com/translate_tts?client=tw-ob&ie=UTF-8&q=" ++
          queryEscape text ++ strBytes "&tl=" ++ queryEscape lang) := rfl
  have h63 : splitAtByte 63
      (strBytes "translate.google.com/translate_tts?client=tw-ob&ie=UTF-8&q=" ++
        queryEscape text ++ strBytes "&tl=" ++ queryEscape lang) =
      some (strBytes "translate.google.com/translate_tts", ttsQuery text lang) := rfl
  have h47 : splitAtByte 47 (strBytes "translate.google.com/translate_tts") =
      some (strBytes "translate.google.com", strBytes "translate_tts") := by decide
  unfold parseURL
  rw [ttsTemplated_any_ctl ht hl, h58]
  simp only [Bool.false_eq_true, if_false]
  rw [if_neg (by decide), h2]
  simp only [h63, h47]
  rfl

theorem tts_eq {text lang : List Nat}
    (ht : ∀ b ∈ text, b < 256) (hl : ∀ b ∈ lang, b < 256) :
    tts text lang = Except.ok
      ⟨strBytes "https", strBytes "translate.google.com",
       strBytes "/translate_tts", ttsQuery text lang⟩ := by
  unfold tts
  rw [parseURL_tts ht hl]

theorem processFields_fst (ok : Nat → Bool) (e : ServiceEntry) (n : Nat)
    (fs : List (List Nat)) :
    (processFields ok e n fs).1 = n + countMatch fs := by
  induction fs generalizing n with
  | nil => simp [processFields, countMatch]
  | cons f rest ih =>
    by_cases hf : hasPref f googleHomeModelInfo
    · by_cases hok : ok n
      · simp [processFields, hf, hok, ih, countMatch, List.countP_cons]
        omega
      · simp [processFields, hf, hok, ih, countMatch, List.countP_cons]
        omega
    · simp [processFields, hf, ih, countMatch, List.countP_cons]

theorem processFields_no_match (ok : Nat → Bool) (e : ServiceEntry) (n : Nat)
    {fs : List (List Nat)}
    (h : ∀ f ∈ fs, hasPref f googleHomeModelInfo = false) :
    processFields ok e n fs = (n, []) := by
  induction fs generalizing n with
  | nil => rfl
  | cons f rest ih =>
    have hf : hasPref f googleHomeModelInfo = false :=
      h f (List.mem_cons_self _ _)
    have ih' := ih n (fun x hx => h x (List.mem_cons_of_mem _ hx))
    simp [processFields, hf, ih']

theorem processFields_all_fail (ok : Nat → Bool) (e : ServiceEntry) (n : Nat)
    {fs : List (List Nat)}
    (h : ∀ m, n ≤ m → m < n + countMatch fs → ok m = false) :
    (processFields ok e n fs).2 = [] := by
  induction fs generalizing n with
  | nil => rfl
  | cons f rest ih =>
    by_cases hf : hasPref f googleHomeModelInfo
    · have hcnt : countMatch (f :: rest) = countMatch rest + 1 := by
        simp [countMatch, List.countP_cons, hf]
      have hok : ok n = false := h n le_rfl (by omega)
      have ih' := ih (n := n + 1) (fun m h1 h2 => h m (by omega) (by omega))
      simp [processFields, hf, hok, ih']
    · have hcnt : countMatch (f :: rest) = countMatch rest := by
        simp [countMatch, List.countP_cons, hf]
      have ih' := ih (n := n) (fun m h1 h2 => h m h1 (by omega))
      simp [processFields, hf, ih']

theorem processFields_all_ok (ok : Nat → Bool) (e : ServiceEntry) (n : Nat)
    (fs : List (List Nat)) (h : ∀ m, ok m = true) :
    (processFields ok e n fs).2 =
      (List.range' n (countMatch fs)).map (fun m => ⟨e, ⟨m⟩⟩) := by
  induction fs generalizing n with
  | nil => simp [processFields, countMatch]
  | cons f rest ih =>
    by_cases hf : hasPref f googleHomeModelInfo
    · have hcnt : countMatch (f :: rest) = countMatch rest + 1 := by
        simp [countMatch, List.countP_cons, hf]
      rw [hcnt]
      simp [processFields, hf, h n, ih, List.range'_succ]
    · have hcnt : countMatch (f :: rest) = countMatch rest := by
        simp [countMatch, List.countP_cons, hf]
      rw [hcnt]
      simp [processFields, hf, ih]

theorem processEntriesFrom_append (ok : Nat → Bool) (n : Nat)
    (xs ys : List ServiceEntry) :
    processEntriesFrom ok n (xs ++ ys) =
      ((processEntriesFrom ok (processEntriesFrom ok n xs).1 ys).1,
        (processEntriesFrom ok n xs).2 ++
          (processEntriesFrom ok (processEntriesFrom ok n xs).1 ys).2) := by
  induction xs generalizing n with
  | nil => simp [processEntriesFrom]
  | cons e rest ih =>
    simp [processEntriesFrom, ih, List.append_assoc]

/-- Claim C2: for every input sequence of MediaData items, QueueLoad
builds an item sequence of the same length in the same order, where the
i-th item's content id is the i-th input's URL rendered as a string and
its metadata has kind 3 and the i-th input's title (possibly empty),
and issues exactly one queue-load command with start index 0. -/
theorem QueueLoad_builds_ordered_items (c : ClientBehavior)
    (data : List MediaData) (h : c.mediaResult = Except.ok ()) :
    ∃ items : List MediaItem,
      (QueueLoad c data).2 = [Command.queueLoad items 0 none] ∧
      items.length = data.length ∧
      ∀ i (hi : i < items.length) (hd : i < data.length),
        (items.get ⟨i, hi⟩).contentId = (data.get ⟨i, hd⟩).url.render ∧
        (items.get ⟨i, hi⟩).metaData =
          some ⟨3, (data.get ⟨i, hd⟩).title⟩ := by
  refine ⟨data.map queueItem, by simp [QueueLoad, h], by simp, ?_⟩
  intro i hi hd
  simp [List.get_eq_getElem, List.getElem_map, queueItem]

/-- A concrete URL for witnesses. -/
def urlW : URL :=
  ⟨strBytes "https", strBytes "example.com", strBytes "/a.mp3", []⟩

/-- A concrete client behaviour for witnesses, whose media controller
and commands always succeed. -/
def clientOkW : ClientBehavior :=
  ⟨Except.ok (), fun _ => Except.ok ()⟩

/-- A concrete two-element playlist for witnesses. -/
def dataW : List MediaData :=
  [⟨urlW, strBytes "T1"⟩, ⟨urlW, strBytes "T2"⟩]

/-- Witness for C2 at a concrete client and two-element playlist. -/
theorem QueueLoad_builds_ordered_items_w :
    ∃ items : List MediaItem,
      (QueueLoad clientOkW dataW).2 = [Command.queueLoad items 0 none] ∧
      items.length = dataW.length ∧
      ∀ i (hi : i < items.length) (hd : i < dataW.length),
        (items.get ⟨i, hi⟩).contentId = (dataW.get ⟨i, hd⟩).url.render ∧
        (items.get ⟨i, hi⟩).metaData =
          some ⟨3, (dataW.get ⟨i, hd⟩).title⟩ :=
  QueueLoad_builds_ordered_items clientOkW dataW rfl

/-- Claim C3: for every URI, Play issues exactly one load-media command
whose item has content id the URI rendered as a string, content type
audio/mp3, stream type BUFFERED and no metadata, with autoplay true and
start position 0. -/
theorem Play_loads_single_item (c : ClientBehavior) (u : URL)
    (h : c.mediaResult = Except.ok ()) :
    (Play c u).2 =
      [Command.loadMedia
        ⟨u.render, strBytes "BUFFERED", strBytes "audio/mp3", none⟩
        0 true none] := by
  simp [Play, h]

/-- Witness for C3 at a concrete client and URL. -/
theorem Play_loads_single_item_w :
    (Play clientOkW urlW).2 =
      [Command.loadMedia
        ⟨urlW.render, strBytes "BUFFERED", strBytes "audio/mp3", none⟩
        0 true none] :=
  Play_loads_single_item clientOkW urlW rfl

/-- Claim C6: LookupAndConnect never surfaces the lookup error: the
result is the same with or without a lookup failure, namely the device
sequence collected from the delivered entries (its return type carries
no error at all). -/
theorem LookupAndConnect_ignores_lookup_error (ok : Nat → Bool)
    (delivered : List ServiceEntry) (e : CastError) :
    LookupAndConnect ok ⟨delivered, some e⟩ =
      LookupAndConnect ok ⟨delivered, none⟩ ∧
    LookupAndConnect ok ⟨delivered, some e⟩ =
      (processEntriesFrom ok 0 delivered).2 :=
  ⟨rfl, rfl⟩

/-- Claim C7: Speak first resolves the text-to-speech URI; on resolver
failure it returns that error with no command sent and independently of
the device, and otherwise it returns exactly the result of Play on the
resolved URI. -/
theorem Speak_short_circuits (c : ClientBehavior) (text lang : List Nat) :
    (∃ e, tts text lang = Except.error e ∧
      ∀ c2 : ClientBehavior, Speak c2 text lang = (Except.error e, [])) ∨
    (∃ u, tts text lang = Except.ok u ∧ Speak c text lang = Play c u) := by
  cases h : tts text lang with
  | error e => exact Or.inl ⟨e, rfl, fun c2 => by simp [Speak, h]⟩
  | ok u => exact Or.inr ⟨u, rfl, by simp [Speak, h]⟩

/-- Claim C8: the text-to-speech resolver is deterministic, and the q
and tl query parameters of the produced URI decode back to the original
text and language inputs. -/
theorem tts_deterministic_roundtrip (text lang : List Nat)
    (ht : ∀ b ∈ text, b < 256) (hl : ∀ b ∈ lang, b < 256) :
    tts text lang = tts text lang ∧
    ∃ u, tts text lang = Except.ok u ∧
      getParam u.rawQuery (strBytes "q") = some text ∧
      getParam u.rawQuery (strBytes "tl") = some lang :=
  ⟨rfl, ⟨_, tts_eq ht hl, getParam_ttsQuery_q ht hl, getParam_ttsQuery_tl ht hl⟩⟩

/-- Witness for C8 at concrete text and language. -/
theorem tts_deterministic_roundtrip_w :
    tts (strBytes "hello") (strBytes "en") =
      tts (strBytes "hello") (strBytes "en") ∧
    ∃ u, tts (strBytes "hello") (strBytes "en") = Except.ok u ∧
      getParam u.rawQuery (strBytes "q") = some (strBytes "hello") ∧
      getParam u.rawQuery (strBytes "tl") = some (strBytes "en") :=
  tts_deterministic_roundtrip (strBytes "hello") (strBytes "en")
    (by decide) (by decide)

/-- Claim C9: tts succeeds on every pair of byte-string inputs,
including empty ones; the malformed-URI error branch is unreachable
because both inputs are query-escaped before substitution. -/
theorem tts_succeeds_on_all_inputs (text lang : List Nat)
    (ht : ∀ b ∈ text, b < 256) (hl : ∀ b ∈ lang, b < 256) :
    ∃ u, tts text lang = Except.ok u :=
  ⟨_, tts_eq ht hl⟩

/-- Witness for C9 at empty text and empty language. -/
theorem tts_succeeds_on_all_inputs_w :
    ∃ u, tts (strBytes "") (strBytes "") = Except.ok u :=
  tts_succeeds_on_all_inputs (strBytes "") (strBytes "") (by decide) (by decide)

/-- Claim C4: an advertisement none of whose descriptor fields begins
with the receiver-family marker yields no device, and contributes
nothing to the result of processing any stream containing it. -/
theorem no_marker_no_device (ok : Nat → Bool) (e : ServiceEntry) (n : Nat)
    (pre post : List ServiceEntry)
    (h : ∀ f ∈ e.infoFields, hasPref f googleHomeModelInfo = false) :
    (processFields ok e n e.infoFields).2 = [] ∧
    (processEntriesFrom ok n (pre ++ e :: post)).2 =
      (processEntriesFrom ok n pre).2 ++
        (processEntriesFrom ok (processEntriesFrom ok n pre).1 post).2 := by
  constructor
  · rw [processFields_no_match ok e n h]
  · rw [processEntriesFrom_append]
    simp only [processEntriesFrom]
    rw [processFields_no_match ok e (processEntriesFrom ok n pre).1 h]
    simp

/-- A concrete advertisement without the marker, for witnesses. -/
def noMatchW : ServiceEntry :=
  ⟨strBytes "10.0.0.7", 8009, strBytes "tv",
    [strBytes "md=Chromecast", strBytes "ve=05"]⟩

/-- A concrete healthy Google Home advertisement, for witnesses. -/
def goodW : ServiceEntry :=
  ⟨strBytes "10.0.0.5", 8009, strBytes "office",
    [strBytes "md=Google Home Mini"]⟩

/-- Witness for C4: the unmatched advertisement yields no device and a
stream around it is processed as if it were absent. -/
theorem no_marker_no_device_w :
    (processFields (fun _ => true) noMatchW 0 noMatchW.infoFields).2 = [] ∧
    (processEntriesFrom (fun _ => true) 0 ([] ++ noMatchW :: [goodW])).2 =
      (processEntriesFrom (fun _ => true) 0 []).2 ++
        (processEntriesFrom (fun _ => true)
          (processEntriesFrom (fun _ => true) 0 []).1 [goodW]).2 :=
  no_marker_no_device (fun _ => true) noMatchW 0 [] [goodW] (by decide)

/-- Claim C5: a qualifying advertisement all of whose connection
attempts fail contributes no device, and the advertisements after it in
the stream are still processed, with every device they produce present
in the overall result. -/
theorem connect_failure_isolated (ok : Nat → Bool) (n : Nat)
    (pre : List ServiceEntry) (eBad : ServiceEntry) (post : List ServiceEntry)
    (h : ∀ m, (processEntriesFrom ok n pre).1 ≤ m →
      m < (processEntriesFrom ok n pre).1 + countMatch eBad.infoFields →
      ok m = false) :
    (processEntriesFrom ok n (pre ++ eBad :: post)).2 =
      (processEntriesFrom ok n pre).2 ++
        (processEntriesFrom ok
          ((processEntriesFrom ok n pre).1 + countMatch eBad.infoFields)
          post).2 ∧
    ∀ d ∈ (processEntriesFrom ok
        ((processEntriesFrom ok n pre).1 + countMatch eBad.infoFields)
        post).2,
      d ∈ (processEntriesFrom ok n (pre ++ eBad :: post)).2 := by
  have hmain : (processEntriesFrom ok n (pre ++ eBad :: post)).2 =
      (processEntriesFrom ok n pre).2 ++
        (processEntriesFrom ok
          ((processEntriesFrom ok n pre).1 + countMatch eBad.infoFields)
          post).2 := by
    rw [processEntriesFrom_append]
    simp only [processEntriesFrom]
    rw [processFields_all_fail ok eBad (processEntriesFrom ok n pre).1 h,
      processFields_fst]
    simp
  refine ⟨hmain, fun d hd => ?_⟩
  rw [hmain]
  exact List.mem_append_right _ hd

/-- A concrete Google Home advertisement whose connect will fail, for
witnesses. -/
def eBadW : ServiceEntry :=
  ⟨strBytes "10.0.0.6", 8009, strBytes "kitchen", [strBytes "md=Google Home"]⟩

/-- A connect oracle failing exactly on the first attempt, for
witnesses. -/
def okW : Nat → Bool := fun m => !(m == 0)

/-- Witness for C5: the failing device is absent while the healthy
device discovered after it is present. -/
theorem connect_failure_isolated_w :
    (processEntriesFrom okW 0 ([] ++ eBadW :: [goodW])).2 =
      (processEntriesFrom okW 0 []).2 ++
        (processEntriesFrom okW
          ((processEntriesFrom okW 0 []).1 + countMatch eBadW.infoFields)
          [goodW]).2 ∧
    ∀ d ∈ (processEntriesFrom okW
        ((processEntriesFrom okW 0 []).1 + countMatch eBadW.infoFields)
        [goodW]).2,
      d ∈ (processEntriesFrom okW 0 ([] ++ eBadW :: [goodW])).2 :=
  connect_failure_isolated okW 0 [] eBadW [goodW] (by
    intro m h1 h2
    have hc : countMatch eBadW.infoFields = 1 := by decide
    have h0 : (processEntriesFrom okW 0 ([] : List ServiceEntry)).1 = 0 := rfl
    rw [h0, hc] at h2
    have hm : m = 0 := by omega
    subst hm
    rfl)

/-- Claim C10: connection attempts and devices are per matching
descriptor field, not per advertisement: with always-successful
connects, an advertisement carrying k marker-prefixed fields advances
the attempt counter by k and contributes exactly k devices, built from
k pairwise-distinct client sessions. -/
theorem device_per_matching_field (ok : Nat → Bool) (e : ServiceEntry)
    (n : Nat) (h : ∀ m, ok m = true) :
    (processFields ok e n e.infoFields).1 = n + countMatch e.infoFields ∧
    (processFields ok e n e.infoFields).2.length = countMatch e.infoFields ∧
    ((processFields ok e n e.infoFields).2.map
      (fun d => d.client.id)).Nodup := by
  refine ⟨processFields_fst ok e n e.infoFields, ?_, ?_⟩
  · rw [processFields_all_ok ok e n e.infoFields h]
    simp
  · rw [processFields_all_ok ok e n e.infoFields h, List.map_map]
    have hcomp : ((fun d : CastDevice => d.client.id) ∘
        (fun m => (⟨e, ⟨m⟩⟩ : CastDevice))) = id := rfl
    rw [hcomp, List.map_id]
    exact List.nodup_range' _ _ _ Nat.one_pos

/-- A concrete advertisement with two marker fields, for witnesses. -/
def twoFieldW : ServiceEntry :=
  ⟨strBytes "10.0.0.8", 8009, strBytes "pair",
    [strBytes "md=Google Home", strBytes "md=Google Home Max",
     strBytes "ve=05"]⟩

/-- Witness for C10: two marker fields yield two devices with distinct
sessions from one advertisement. -/
theorem device_per_matching_field_w :
    (processFields (fun _ => true) twoFieldW 0 twoFieldW.infoFields).1 =
      0 + countMatch twoFieldW.infoFields ∧
    (processFields (fun _ => true) twoFieldW 0 twoFieldW.infoFields).2.length =
      countMatch twoFieldW.infoFields ∧
    ((processFields (fun _ => true) twoFieldW 0 twoFieldW.infoFields).2.map
      (fun d => d.client.id)).Nodup :=
  device_per_matching_field (fun _ => true) twoFieldW 0 (fun _ => rfl)

/-- Claim C1 concerns the close-then-drain-then-return discipline.  The
source closes the channel once, but contains no synchronization between
close(entriesCh) and the return of the results slice, so a real
interleaving exists in which the main goroutine returns before the
collector goroutine has drained an advertisement that was queued before
the close: the returned sequence is empty although the queued
advertisement qualifies and its connect would succeed. -/
theorem LookupAndConnect_race_drops_queued :
    ∃ s : OrchState,
      Relation.ReflTransGen (Step (fun _ => true)) (initOrch [goodW]) s ∧
      s.retVal = some [] ∧
      s.queue = [goodW] ∧
      (processEntriesFrom (fun _ => true) 0 s.queue).2 ≠ [] := by
  refine ⟨⟨[], [goodW], true, true, [], some []⟩, ?_, rfl, rfl, by decide⟩
  have h1 : Step (fun _ => true) (initOrch [goodW])
      ⟨[], [goodW], false, false, [], none⟩ :=
    Step.deliver _ goodW [] rfl (by decide) rfl
  have h2 : Step (fun _ => true) ⟨[], [goodW], false, false, [], none⟩
      ⟨[], [goodW], true, false, [], none⟩ :=
    Step.lookupRet _ rfl
  have h3 : Step (fun _ => true) ⟨[], [goodW], true, false, [], none⟩
      ⟨[], [goodW], true, true, [], none⟩ :=
    Step.closeCh _ rfl rfl
  have h4 : Step (fun _ => true) ⟨[], [goodW], true, true, [], none⟩
      ⟨[], [goodW], true, true, [], some []⟩ :=
    Step.ret _ rfl rfl
  exact Relation.ReflTransGen.head h1 (Relation.ReflTransGen.head h2
    (Relation.ReflTransGen.head h3 (Relation.ReflTransGen.single h4)))

end Homecast
